import Mathlib

/-!
Shallow embedding of `flag.h` (kisielk/flagcxx), a minimal command-line flag
parser.  C++ strings (`std::string`, `std::string_view`) are modelled as
`List Char`; the caller-owned variables a `FlagSet` mutates are gathered in a
store of abstract type `σ`, and a converter (`Flag::SetFn`) becomes a state
transformer `List Char → σ → Option FlagError × σ`.  `argc`/`argv` are kept
as a separate count and token list, exactly as in the source; dereferencing
`argv` past the end of the supplied vector (undefined behaviour in C++) is
modelled by a distinguished outcome.
-/

namespace FlagCxx

/-- Characters of a C++ string / string_view. -/
abbrev Chars := List Char

/-- Shorthand turning a Lean string literal into its character list. -/
def toL (s : String) : Chars := s.toList

/-- Error kinds, `flag.h` lines 14-21 (`Error::EType`). -/
inductive EType where
  | Help
  | NumArgs
  | BadSyntax
  | UndefinedFlag
  | MissingValue
  | BadValue
deriving DecidableEq

/-- Parse-level error: a kind plus a message, `flag.h` lines 12-31. -/
structure Error where
  type : EType
  message : Chars
deriving DecidableEq

/-- Converter-level failure (`FlagError`), `flag.h` lines 33-41. -/
structure FlagError where
  message : Chars
deriving DecidableEq

/-- A registered flag, `flag.h` lines 43-51: a converter bound to caller
storage (modelled on the store type `σ`), a usage string and the bool marker. -/
structure Flag (σ : Type) where
  setFn : Chars → σ → Option FlagError × σ
  usage : Chars
  isBool : Bool

/-- `FlagSet` state, `flag.h` lines 71-76: `parsed`, the positional `args`
and the registry (an `unordered_map` keyed by flag name). -/
structure FlagSet (σ : Type) where
  parsed : Bool
  args : List Chars
  flags : List (Chars × Flag σ)

/-- A freshly constructed `FlagSet`: member initializers `parsed{false}`,
`args{}`, `flags{}`. -/
def FlagSet.new {σ : Type} : FlagSet σ := ⟨false, [], []⟩

/-- `flags.find(name)` on the registry, returning the mapped `Flag`. -/
def lookupFlag {σ : Type} : List (Chars × Flag σ) → Chars → Option (Flag σ)
  | [], _ => none
  | (k, f) :: rest, name => if k = name then some f else lookupFlag rest name

/-- `std::unordered_map::insert`: a no-op when the key is already present
(it does NOT overwrite an existing entry). -/
def mapInsert {σ : Type} (m : List (Chars × Flag σ)) (k : Chars) (f : Flag σ) :
    List (Chars × Flag σ) :=
  if (lookupFlag m k).isSome then m else (k, f) :: m

/-- `FlagSet::Var<T>` for non-boolean `T`, `flag.h` lines 276-280: insert a
flag with the given converter and `isBool = false`. -/
def FlagSet.Var {σ : Type} (fs : FlagSet σ) (setFn : Chars → σ → Option FlagError × σ)
    (name usage : Chars) : FlagSet σ :=
  { fs with flags := mapInsert fs.flags name ⟨setFn, usage, false⟩ }

/-- `FlagSet::Var<bool>` specialization, `flag.h` lines 288-292: as `Var`
but with `isBool = true`. -/
def FlagSet.VarBool {σ : Type} (fs : FlagSet σ) (setFn : Chars → σ → Option FlagError × σ)
    (name usage : Chars) : FlagSet σ :=
  { fs with flags := mapInsert fs.flags name ⟨setFn, usage, true⟩ }

/-- The `=`-splitting loop of `FlagSet::Parse`, `flag.h` lines 117-126,
translated literally: `i` runs from 1 while `i < s.size()`; on finding `'='`
the code sets `value` to the characters after it, truncates `s` to the
characters before it (`remove_suffix`) and records `hasValue`.  The first
argument is fuel bounding the number of iterations (the loop runs at most
`s.length` times, since `i` increases and `s` only shrinks). -/
def eqLoopF : Nat → Chars → Chars → Bool → Nat → Chars × Chars × Bool
  | 0, s, value, hasValue, _ => (s, value, hasValue)
  | fuel + 1, s, value, hasValue, i =>
    if i < s.length then
      if s.get? i = some '=' then
        eqLoopF fuel (s.take i) (s.drop (i + 1)) true (i + 1)
      else
        eqLoopF fuel s value hasValue (i + 1)
    else
      (s, value, hasValue)

/-- Split a stripped token into `(name, value, hasValue)` as the source loop
does (`flag.h` lines 117-127). -/
def eqSplit (t : Chars) : Chars × Chars × Bool := eqLoopF t.length t [] false 1

/-- Result of the flag-scanning `while` loop of `FlagSet::Parse`. -/
inductive ScanOut (σ : Type) where
  | stopped (store : σ) (argc : Nat) (rest : List Chars)
  | errored (store : σ) (e : Error)
  | oobRead (store : σ)

/-- The flag-scanning loop of `FlagSet::Parse`, `flag.h` lines 89-178,
translated clause by clause.  `argc` and the remaining token list are kept
separately, exactly as the source keeps `argc` and `argv`; a `*argv` read
with no token left (possible because the source increments `argc` instead of
decrementing it when it consumes a following token as a flag value, line 163)
is `oobRead`, the C++ out-of-bounds dereference.  The first argument is fuel
bounding the number of loop iterations: every iteration either terminates or
removes at least one token from the remaining list, so `rest.length + 1`
iterations always suffice and the fuel-exhausted branch (also `oobRead`) is
unreachable at the fuel `scanLoop` supplies. -/
def scanLoopF {σ : Type} (flags : List (Chars × Flag σ)) :
    Nat → σ → Nat → List Chars → ScanOut σ
  | 0, store, _, _ => ScanOut.oobRead store
  | _ + 1, store, 0, rest => ScanOut.stopped store 0 rest
  | _ + 1, store, _ + 1, [] => ScanOut.oobRead store
  | fuel + 1, store, argc1 + 1, s :: rs =>
    if s.length < 2 ∨ s.head? ≠ some '-' then
      -- flags have ended, positional arguments from here on (token not consumed)
      ScanOut.stopped store (argc1 + 1) (s :: rs)
    else
      if s.get? 1 = some '-' ∧ s.length = 2 then
        -- argument is --, consume it and terminate flags
        ScanOut.stopped store argc1 rs
      else
        -- consume the token (argc--; argv++)
        let numMinuses : Nat := if s.get? 1 = some '-' then 2 else 1
        let t := s.drop numMinuses
        if t.head? = some '-' ∨ t.head? = some '=' then
          ScanOut.errored store ⟨EType.BadSyntax, toL "Bad flag syntax: " ++ t⟩
        else
          match eqSplit t with
          | (name, value, hasValue) =>
            match lookupFlag flags name with
            | none =>
              if name = toL "help" ∨ name = toL "h" then
                ScanOut.errored store ⟨EType.Help, []⟩
              else
                ScanOut.errored store
                  ⟨EType.UndefinedFlag, toL "Flag provided but not defined: " ++ name⟩
            | some fl =>
              if fl.isBool then
                if hasValue then
                  match fl.setFn value store with
                  | (some fe, store2) =>
                    ScanOut.errored store2
                      ⟨EType.BadValue, toL "Bad boolean value " ++ value ++
                        toL " for flag " ++ name ++ toL ": " ++ fe.message⟩
                  | (none, store2) => scanLoopF flags fuel store2 argc1 rs
                else
                  match fl.setFn (toL "true") store with
                  | (some fe, store2) =>
                    ScanOut.errored store2
                      ⟨EType.BadValue, toL "Bad boolean flag " ++ name ++
                        toL ": " ++ fe.message⟩
                  | (none, store2) => scanLoopF flags fuel store2 argc1 rs
              else
                if hasValue then
                  match fl.setFn value store with
                  | (some fe, store2) =>
                    ScanOut.errored store2
                      ⟨EType.BadValue, toL "Bad value " ++ value ++
                        toL " for flag " ++ name ++ toL ": " ++ fe.message⟩
                  | (none, store2) => scanLoopF flags fuel store2 argc1 rs
                else
                  if 0 < argc1 then
                    match rs with
                    | [] => ScanOut.oobRead store
                    | v :: rs2 =>
                      -- source line 163: `argc++` (not `argc--`) after `argv++`
                      match fl.setFn v store with
                      | (some fe, store2) =>
                        ScanOut.errored store2
                          ⟨EType.BadValue, toL "Bad value " ++ v ++
                            toL " for flag " ++ name ++ toL ": " ++ fe.message⟩
                      | (none, store2) => scanLoopF flags fuel store2 (argc1 + 1) rs2
                  else
                    ScanOut.errored store
                      ⟨EType.MissingValue, toL "Flag is missing a value: " ++ name⟩

/-- The flag-scanning loop at its adequate fuel. -/
def scanLoop {σ : Type} (flags : List (Chars × Flag σ)) (store : σ) (argc : Nat)
    (rest : List Chars) : ScanOut σ :=
  scanLoopF flags (rest.length + 1) store argc rest

/-- The trailing loop of `FlagSet::Parse`, `flag.h` lines 181-185: while
`argc` is nonzero, append `*argv` to `args`.  The boolean is true when the
loop dereferences `argv` past the end of the vector. -/
def slurpLoop : Nat → List Chars → List Chars → List Chars × Bool
  | 0, _, acc => (acc, false)
  | _ + 1, [], acc => (acc, true)
  | argc + 1, t :: rs, acc => slurpLoop argc rs (acc ++ [t])

/-- Overall outcome of a `Parse` call: success (`return {}`), a returned
`Error`, or an out-of-bounds `argv` read (undefined behaviour in the C++). -/
inductive Outcome where
  | success
  | failure (e : Error)
  | outOfBounds
deriving DecidableEq

/-- Final state of a `Parse` call: the updated `FlagSet`, the updated store
of bound variables, and the outcome. -/
structure ParseResult (σ : Type) where
  fs : FlagSet σ
  store : σ
  outcome : Outcome

/-- `FlagSet::Parse`, `flag.h` lines 78-188.  `argc` is the argument count
passed by the caller (the tests pass `argv.length`); `argv` the token
vector. -/
def FlagSet.Parse {σ : Type} (fs : FlagSet σ) (store : σ) (argc : Nat)
    (argv : List Chars) : ParseResult σ :=
  let fs1 : FlagSet σ := { fs with parsed := true }
  if argc < 1 then
    ⟨fs1, store, Outcome.failure ⟨EType.NumArgs, toL "At least 1 argument is needed."⟩⟩
  else
    -- drop the program name: argc--; argv++
    match scanLoop fs1.flags store (argc - 1) (argv.drop 1) with
    | ScanOut.errored store2 e => ⟨fs1, store2, Outcome.failure e⟩
    | ScanOut.oobRead store2 => ⟨fs1, store2, Outcome.outOfBounds⟩
    | ScanOut.stopped store2 argc2 rest2 =>
      let p := slurpLoop argc2 rest2 fs1.args
      ⟨{ fs1 with args := p.1 }, store2,
        if p.2 then Outcome.outOfBounds else Outcome.success⟩

/-- `detail::MakeSetFn<std::string>`, `flag.h` lines 234-240: assign the
token verbatim, never fail. -/
def setString (s : Chars) (_var : Chars) : Option FlagError × Chars := (none, s)

/-- The `trueValues` array, `flag.h` line 244. -/
def trueValues : List Chars := [toL "true", toL "t", toL "yes", toL "y"]

/-- The `falseValues` array, `flag.h` line 245: declared
`std::array<std::string_view, 5>` with only four initializers, so the fifth
element is a default-constructed (empty) string_view. -/
def falseValues : List Chars := [toL "false", toL "f", toL "no", toL "n", []]

/-- Digit test used by the numeric-extraction model. -/
def isDigitC (c : Char) : Bool := '0' ≤ c ∧ c ≤ '9'

/-- Whitespace test used by the numeric-extraction model (stream extraction
skips leading whitespace). -/
def isSpaceC (c : Char) : Bool :=
  c = ' ' ∨ c = '\t' ∨ c = '\n' ∨ c = '\r' ∨ c = '\x0b' ∨ c = '\x0c'

/-- Numeric value of a digit string. -/
def digitsVal (l : Chars) : Nat := l.foldl (fun n c => 10 * n + (c.toNat - '0'.toNat)) 0

/-- Exponent part of the numeric-extraction model: optional sign and a
nonempty digit string; an empty exponent makes the whole extraction fail. -/
def parseExp (sgn mant : Rat) (r : Chars) : Option Rat :=
  let esgn : Int := match r with | '-' :: _ => -1 | '+' :: _ => 1 | _ => 1
  let r1 : Chars := match r with | '-' :: rr => rr | '+' :: rr => rr | rr => rr
  let es := r1.takeWhile isDigitC
  if es.isEmpty then none
  else some (sgn * mant * (10 : Rat) ^ (esgn * (digitsVal es : Int)))

/-- Model of C++ formatted stream extraction into a floating-point variable
(`ss >> var`, used by `detail::MakeSetFn<float>` / `<double>`): skip leading
whitespace, then an optional sign, digits with an optional decimal point (at
least one digit required), and an optional exponent; characters after a
successfully extracted field are ignored.  The extracted value is kept as an
exact rational (rounding to the machine format is not modelled, nor are
hexadecimal fields or inf/nan spellings).  `none` is extraction failure. -/
def parseFloat (s : Chars) : Option Rat :=
  let s0 := s.dropWhile isSpaceC
  let sgn : Rat := match s0 with | '-' :: _ => -1 | '+' :: _ => 1 | _ => 1
  let s1 : Chars := match s0 with | '-' :: r => r | '+' :: r => r | r => r
  let ds := s1.takeWhile isDigitC
  let s2 := s1.dropWhile isDigitC
  let fracs : Chars := match s2 with | '.' :: r => r.takeWhile isDigitC | _ => []
  let s3 : Chars := match s2 with | '.' :: r => r.dropWhile isDigitC | r => r
  if ds.isEmpty ∧ fracs.isEmpty then none
  else
    let mant : Rat := (digitsVal ds : Rat) + (digitsVal fracs : Rat) / (10 : Rat) ^ fracs.length
    match s3 with
    | 'e' :: r => parseExp sgn mant r
    | 'E' :: r => parseExp sgn mant r
    | _ => some (sgn * mant)

/-- `detail::MakeSetFn<float>`, `flag.h` lines 208-219: `ss << s; ss >> var;`
then report failure when `ss.fail()`.  Since C++11 a failed formatted
extraction stores 0 in the variable, so on failure the bound variable holds
0, whatever it held before. -/
def setFloat (s : Chars) (_var : Rat) : Option FlagError × Rat :=
  match parseFloat s with
  | some v => (none, v)
  | none => (some ⟨toL "number is not a float"⟩, (0 : Rat))

/-- `detail::MakeSetFn<double>`, `flag.h` lines 221-232: identical to the
float converter apart from the message. -/
def setDouble (s : Chars) (_var : Rat) : Option FlagError × Rat :=
  match parseFloat s with
  | some v => (none, v)
  | none => (some ⟨toL "number is not a double"⟩, (0 : Rat))

/-- `detail::MakeSetFn<bool>`, `flag.h` lines 242-260. -/
def setBool (s : Chars) (var : Bool) : Option FlagError × Bool :=
  if s.isEmpty then
    (none, true)
  else
    if s ∈ trueValues then
      (none, true)
    else if s ∈ falseValues then
      (none, false)
    else
      (some ⟨toL "Unknown boolean value"⟩, var)

/-- Lift a converter failure into the `BadValue` error the non-boolean branch
of `Parse` produces (`flag.h` lines 171-176). -/
def liftValueErr (name value : Chars) : Option FlagError → Outcome
  | none => Outcome.success
  | some fe =>
    Outcome.failure ⟨EType.BadValue, toL "Bad value " ++ value ++
      toL " for flag " ++ name ++ toL ": " ++ fe.message⟩

section RegistryLemmas

variable {σ : Type}

theorem lookupFlag_mapInsert_self (m : List (Chars × Flag σ)) (k : Chars) (f : Flag σ)
    (h : lookupFlag m k = none) : lookupFlag (mapInsert m k f) k = some f := by
  unfold mapInsert
  rw [h]
  simp [lookupFlag]

theorem mapInsert_of_mem (m : List (Chars × Flag σ)) (k : Chars) (f : Flag σ)
    (h : (lookupFlag m k).isSome = true) : mapInsert m k f = m := by
  unfold mapInsert
  rw [if_pos h]

theorem lookupFlag_mapInsert_isSome (m : List (Chars × Flag σ)) (k : Chars) (f : Flag σ) :
    (lookupFlag (mapInsert m k f) k).isSome = true := by
  unfold mapInsert
  by_cases h : (lookupFlag m k).isSome = true
  · rw [if_pos h]; exact h
  · rw [if_neg h]
    simp [lookupFlag]

end RegistryLemmas

section EqSplitLemmas

theorem eqLoopF_done (fuel : Nat) (s value : Chars) (hasValue : Bool) (i : Nat)
    (h : s.length ≤ i) : eqLoopF fuel s value hasValue i = (s, value, hasValue) := by
  cases fuel with
  | zero => rfl
  | succ fuel => simp [eqLoopF, Nat.not_lt.mpr h]

theorem eqLoopF_no_eq (fuel : Nat) : ∀ (s value : Chars) (hasValue : Bool) (i : Nat),
    s.length ≤ i + fuel → (∀ k, i ≤ k → s.get? k ≠ some '=') →
    eqLoopF fuel s value hasValue i = (s, value, hasValue) := by
  induction fuel with
  | zero => intro s value hasValue i _ _; rfl
  | succ fuel ih =>
    intro s value hasValue i hfuel hk
    rw [eqLoopF]
    by_cases hi : i < s.length
    · rw [if_pos hi, if_neg (hk i le_rfl)]
      exact ih s value hasValue (i + 1) (by omega) fun k h => hk k (by omega)
    · rw [if_neg hi]

theorem eqLoopF_first_eq (fuel : Nat) : ∀ (pre post value : Chars) (hasValue : Bool) (i : Nat),
    i ≤ pre.length → pre.length + 1 ≤ i + fuel →
    (∀ k, i ≤ k → k < pre.length → pre.get? k ≠ some '=') →
    eqLoopF fuel (pre ++ '=' :: post) value hasValue i = (pre, post, true) := by
  induction fuel with
  | zero => intro pre post value hasValue i h1 h2 _; omega
  | succ fuel ih =>
    intro pre post value hasValue i h1 h2 hk
    rw [eqLoopF]
    have hlen : (pre ++ '=' :: post).length = pre.length + 1 + post.length := by
      simp [List.length_append]; omega
    have hi : i < (pre ++ '=' :: post).length := by omega
    rw [if_pos hi]
    rcases Nat.lt_or_ge i pre.length with hlt | hge
    · have hget : (pre ++ '=' :: post).get? i = pre.get? i := List.get?_append hlt
      rw [if_neg (by rw [hget]; exact hk i le_rfl hlt)]
      exact ih pre post value hasValue (i + 1) hlt (by omega)
        fun k hik hkpre => hk k (by omega) hkpre
    · have hij : i = pre.length := le_antisymm h1 hge
      subst hij
      have hget : (pre ++ '=' :: post).get? pre.length = some '=' := by
        rw [List.get?_append_right le_rfl]
        simp
      rw [if_pos hget]
      have htake : (pre ++ '=' :: post).take pre.length = pre := List.take_left pre _
      have hdrop : (pre ++ '=' :: post).drop (pre.length + 1) = post := by
        have : pre ++ '=' :: post = (pre ++ ['=']) ++ post := by simp
        rw [this]
        have hl : (pre ++ ['=']).length = pre.length + 1 := by simp
        rw [← hl]
        exact List.drop_left _ _
      rw [htake, hdrop]
      exact eqLoopF_done fuel pre post true (pre.length + 1) (by omega)

theorem eqSplit_no_eq (t : Chars) (h : '=' ∉ t) : eqSplit t = (t, [], false) := by
  unfold eqSplit
  exact eqLoopF_no_eq t.length t [] false 1 (by omega)
    fun k _ hk => h (List.get?_mem hk)

theorem eqSplit_first_eq (c : Char) (pre post : Chars) (h : '=' ∉ (c :: pre)) :
    eqSplit (c :: pre ++ '=' :: post) = (c :: pre, post, true) := by
  unfold eqSplit
  have : (c :: pre) ++ '=' :: post = c :: pre ++ '=' :: post := rfl
  rw [← this]
  exact eqLoopF_first_eq _ (c :: pre) post [] false 1 (by simp)
    (by simp [List.length_append]; omega)
    (fun k _ hk heq => h (List.get?_mem heq))

end EqSplitLemmas

section SlurpLemmas

theorem slurpLoop_full : ∀ (rest acc : List Chars),
    slurpLoop rest.length rest acc = (acc ++ rest, false) := by
  intro rest
  induction rest with
  | nil => intro acc; simp [slurpLoop]
  | cons t rs ih =>
    intro acc
    rw [List.length_cons, slurpLoop, ih]
    simp

theorem slurpLoop_append : ∀ (argc : Nat) (rest acc : List Chars),
    ∃ t, (slurpLoop argc rest acc).1 = acc ++ t := by
  intro argc rest
  induction rest generalizing argc with
  | nil =>
    intro acc
    cases argc with
    | zero => exact ⟨[], by simp [slurpLoop]⟩
    | succ n => exact ⟨[], by simp [slurpLoop]⟩
  | cons t rs ih =>
    intro acc
    cases argc with
    | zero => exact ⟨[], by simp [slurpLoop]⟩
    | succ n =>
      obtain ⟨u, hu⟩ := ih n (acc ++ [t])
      exact ⟨t :: u, by rw [slurpLoop, hu]; simp⟩

end SlurpLemmas

section ScanStepLemmas

variable {σ : Type}

theorem scanLoop_nonflag (flags : List (Chars × Flag σ)) (store : σ) (argc1 : Nat)
    (t : Chars) (rest : List Chars) (h : t.length < 2 ∨ t.head? ≠ some '-') :
    scanLoop flags store (argc1 + 1) (t :: rest) =
      ScanOut.stopped store (argc1 + 1) (t :: rest) := by
  simp only [scanLoop, scanLoopF, if_pos h]

theorem scanLoop_terminator (flags : List (Chars × Flag σ)) (store : σ) (argc1 : Nat)
    (rest : List Chars) :
    scanLoop flags store (argc1 + 1) (toL "--" :: rest) = ScanOut.stopped store argc1 rest := rfl

theorem scanLoop_help_long (flags : List (Chars × Flag σ)) (store : σ) (argc1 : Nat)
    (rs : List Chars) (h : lookupFlag flags (toL "help") = none) :
    scanLoop flags store (argc1 + 1) (toL "--help" :: rs) =
      ScanOut.errored store ⟨EType.Help, []⟩ := by
  simp only [scanLoop, List.length_cons, scanLoopF, h,
    (by decide : ¬(List.length (toL "--help") < 2 ∨ List.head? (toL "--help") ≠ some '-')),
    (by decide : ¬(List.get? (toL "--help") 1 = some '-' ∧ List.length (toL "--help") = 2)),
    (by decide : (if List.get? (toL "--help") 1 = some '-' then 2 else 1) = 2),
    (by decide : List.drop 2 (toL "--help") = toL "help"),
    (by decide : eqSplit (toL "help") = (toL "help", [], false)),
    (by decide : ¬(List.head? (toL "help") = some '-' ∨ List.head? (toL "help") = some '=')),
    (by decide : (toL "help" = toL "help" ∨ toL "help" = toL "h"))]
  simp

theorem scanLoop_help_short (flags : List (Chars × Flag σ)) (store : σ) (argc1 : Nat)
    (rs : List Chars) (h : lookupFlag flags (toL "h") = none) :
    scanLoop flags store (argc1 + 1) (toL "-h" :: rs) =
      ScanOut.errored store ⟨EType.Help, []⟩ := by
  simp only [scanLoop, List.length_cons, scanLoopF, h,
    (by decide : ¬(List.length (toL "-h") < 2 ∨ List.head? (toL "-h") ≠ some '-')),
    (by decide : ¬(List.get? (toL "-h") 1 = some '-' ∧ List.length (toL "-h") = 2)),
    (by decide : (if List.get? (toL "-h") 1 = some '-' then 2 else 1) = 1),
    (by decide : List.drop 1 (toL "-h") = toL "h"),
    (by decide : eqSplit (toL "h") = (toL "h", [], false)),
    (by decide : ¬(List.head? (toL "h") = some '-' ∨ List.head? (toL "h") = some '=')),
    (by decide : (toL "h" = toL "help" ∨ toL "h" = toL "h"))]
  simp

theorem scanLoop_undef (flags : List (Chars × Flag σ)) (store : σ) (argc1 : Nat)
    (rs : List Chars) (c : Char) (pre : Chars)
    (hc : c ≠ '-') (hne : '=' ∉ (c :: pre))
    (hlook : lookupFlag flags (c :: pre) = none)
    (hh1 : (c :: pre) ≠ toL "help") (hh2 : (c :: pre) ≠ toL "h") :
    scanLoop flags store (argc1 + 1) (('-' :: '-' :: c :: pre) :: rs) =
      ScanOut.errored store
        ⟨EType.UndefinedFlag, toL "Flag provided but not defined: " ++ (c :: pre)⟩ := by
  have hceq : c ≠ '=' := fun hc2 => hne (hc2 ▸ List.mem_cons_self c pre)
  have h1 : ¬(('-' :: '-' :: c :: pre).length < 2 ∨
      ('-' :: '-' :: c :: pre).head? ≠ some '-') := by
    rintro (hbad | hbad)
    · simp only [List.length_cons] at hbad; omega
    · exact hbad rfl
  have h2 : ¬(List.get? ('-' :: '-' :: c :: pre) 1 = some '-' ∧
      ('-' :: '-' :: c :: pre).length = 2) := by
    rintro ⟨-, hbad⟩
    simp only [List.length_cons] at hbad; omega
  have hnum : (if List.get? ('-' :: '-' :: c :: pre) 1 = some '-' then 2 else 1) = 2 :=
    if_pos rfl
  have hdrop : List.drop 2 ('-' :: '-' :: c :: pre) = c :: pre := rfl
  have hbs : ¬((c :: pre).head? = some '-' ∨ (c :: pre).head? = some '=') := by
    rintro (hbad | hbad) <;> rw [List.head?_cons, Option.some.injEq] at hbad
    · exact hc hbad
    · exact hceq hbad
  have hsplit : eqSplit (c :: pre) = (c :: pre, [], false) := eqSplit_no_eq _ hne
  have hor : ¬((c :: pre) = toL "help" ∨ (c :: pre) = toL "h") := by
    rintro (hbad | hbad)
    · exact hh1 hbad
    · exact hh2 hbad
  simp only [scanLoop, scanLoopF, h1, h2, hnum, hdrop, hbs, hsplit, hlook, hor]
  simp

theorem scanLoop_inline (flags : List (Chars × Flag σ)) (store : σ) (argc1 : Nat)
    (rs : List Chars) (c : Char) (pre v : Chars) (fl : Flag σ)
    (hc : c ≠ '-') (hne : '=' ∉ (c :: pre))
    (hlook : lookupFlag flags (c :: pre) = some fl) (hbool : fl.isBool = false) :
    scanLoop flags store (argc1 + 1) (('-' :: (c :: pre ++ '=' :: v)) :: rs) =
      (match fl.setFn v store with
        | (some fe, store2) =>
          ScanOut.errored store2
            ⟨EType.BadValue, toL "Bad value " ++ v ++ toL " for flag " ++ (c :: pre) ++
              toL ": " ++ fe.message⟩
        | (none, store2) => scanLoop flags store2 argc1 rs) := by
  have hceq : c ≠ '=' := fun hc2 => hne (hc2 ▸ List.mem_cons_self c pre)
  have hget1 : List.get? ('-' :: (c :: pre ++ '=' :: v)) 1 = some c := rfl
  have h1 : ¬(('-' :: (c :: pre ++ '=' :: v)).length < 2 ∨
      ('-' :: (c :: pre ++ '=' :: v)).head? ≠ some '-') := by
    rintro (hbad | hbad)
    · simp only [List.length_cons, List.length_append] at hbad; omega
    · exact hbad rfl
  have h2 : ¬(List.get? ('-' :: (c :: pre ++ '=' :: v)) 1 = some '-' ∧
      ('-' :: (c :: pre ++ '=' :: v)).length = 2) := by
    rintro ⟨hbad, -⟩
    rw [hget1, Option.some.injEq] at hbad
    exact hc hbad
  have hnum : (if List.get? ('-' :: (c :: pre ++ '=' :: v)) 1 = some '-' then 2 else 1) = 1 := by
    rw [hget1]
    exact if_neg (fun hbad => hc (Option.some.inj hbad))
  have hdrop : List.drop 1 ('-' :: (c :: pre ++ '=' :: v)) = c :: pre ++ '=' :: v := rfl
  have hbs : ¬((c :: pre ++ '=' :: v).head? = some '-' ∨
      (c :: pre ++ '=' :: v).head? = some '=') := by
    rintro (hbad | hbad) <;> rw [List.cons_append, List.head?_cons, Option.some.injEq] at hbad
    · exact hc hbad
    · exact hceq hbad
  have hsplit : eqSplit (c :: pre ++ '=' :: v) = (c :: pre, v, true) :=
    eqSplit_first_eq c pre v hne
  simp only [scanLoop, scanLoopF, h1, h2, hnum, hdrop, hbs, hsplit, hlook, hbool]
  rcases fl.setFn v store with ⟨fe, store2⟩
  rcases fe with _ | fe <;> simp [scanLoop]

end ScanStepLemmas

section ParseLemmas

variable {σ : Type}

theorem Parse_parsed (fs : FlagSet σ) (store : σ) (argc : Nat) (argv : List Chars) :
    (fs.Parse store argc argv).fs.parsed = true := by
  unfold FlagSet.Parse
  dsimp only
  split
  · rfl
  · split <;> rfl

theorem Parse_args_append (fs : FlagSet σ) (store : σ) (argc : Nat) (argv : List Chars) :
    ∃ t, (fs.Parse store argc argv).fs.args = fs.args ++ t := by
  unfold FlagSet.Parse
  dsimp only
  split
  · exact ⟨[], by simp⟩
  · split
    · exact ⟨[], by simp⟩
    · exact ⟨[], by simp⟩
    · exact slurpLoop_append _ _ _

theorem Parse_single_inline (fs : FlagSet σ) (store : σ) (prog : Chars)
    (c : Char) (pre v : Chars) (fl : Flag σ)
    (hc : c ≠ '-') (hne : '=' ∉ (c :: pre))
    (hlook : lookupFlag fs.flags (c :: pre) = some fl) (hbool : fl.isBool = false) :
    fs.Parse store 2 [prog, '-' :: (c :: pre ++ '=' :: v)] =
      ⟨{ fs with parsed := true }, (fl.setFn v store).2,
        liftValueErr (c :: pre) v (fl.setFn v store).1⟩ := by
  have hs := scanLoop_inline fs.flags store 0 [] c pre v fl hc hne hlook hbool
  simp only [Nat.zero_add] at hs
  unfold FlagSet.Parse
  rw [if_neg (by omega)]
  dsimp only
  rw [show (2 : Nat) - 1 = 1 from rfl, List.drop_succ_cons, List.drop_zero, hs]
  rcases hfn : fl.setFn v store with ⟨fe, store2⟩
  rcases fe with _ | fe
  · simp only [scanLoop, scanLoopF, slurpLoop, liftValueErr]
    simp
  · simp only [liftValueErr]

end ParseLemmas

/-- C6: for every string `s`, the boolean converter sets the bound variable to
true exactly when `s` is in {"true","t","yes","y"} or `s` is empty, sets it to
false exactly when `s` is in {"false","f","no","n"} (case-sensitive), and
reports a conversion failure for every other `s`, leaving the variable
unchanged. -/
theorem C6_bool_converter : ∀ (s : Chars) (var : Bool),
    ((s = [] ∨ s ∈ [toL "true", toL "t", toL "yes", toL "y"]) → setBool s var = (none, true))
  ∧ (s ∈ [toL "false", toL "f", toL "no", toL "n"] → setBool s var = (none, false))
  ∧ (s ≠ [] → s ∉ [toL "true", toL "t", toL "yes", toL "y"] →
      s ∉ [toL "false", toL "f", toL "no", toL "n"] →
      setBool s var = (some ⟨toL "Unknown boolean value"⟩, var)) := by
  intro s var
  refine ⟨?_, ?_, ?_⟩
  · rintro (rfl | hmem)
    · rfl
    · fin_cases hmem <;> rfl
  · intro hmem
    fin_cases hmem <;> rfl
  · intro h1 h2 h3
    have hemp : ¬(s.isEmpty = true) := by
      simpa [List.isEmpty_iff] using h1
    have hte : s ∉ trueValues := by
      simpa [trueValues] using h2
    have hfe : s ∉ falseValues := by
      intro hmem
      rw [falseValues] at hmem
      simp only [List.mem_cons, List.not_mem_nil, or_false] at hmem
      rcases hmem with hx | hx | hx | hx | hx
      · exact h3 (by rw [hx]; simp)
      · exact h3 (by rw [hx]; simp)
      · exact h3 (by rw [hx]; simp)
      · exact h3 (by rw [hx]; simp)
      · exact h1 hx
    rw [setBool, if_neg hemp, if_neg hte, if_neg hfe]

/-- C6 witness: the three converter behaviours at concrete inputs. -/
theorem C6_bool_converter_witness :
    setBool (toL "yes") false = (none, true)
    ∧ setBool (toL "no") true = (none, false)
    ∧ setBool (toL "maybe") true = (some ⟨toL "Unknown boolean value"⟩, true) :=
  ⟨(C6_bool_converter (toL "yes") false).1 (Or.inr (by decide)),
   (C6_bool_converter (toL "no") true).2.1 (by decide),
   (C6_bool_converter (toL "maybe") true).2.2 (by decide) (by decide) (by decide)⟩

/-- C8: for every argument vector with fewer than 1 entries (argc = 0, no
program name present), `Parse` fails immediately with a `NumArgs` error,
mutating no bound variable and adding no positional argument (the resulting
state differs from the input state only in `parsed`). -/
theorem C8_numArgs_on_empty : ∀ (σ : Type) (fs : FlagSet σ) (store : σ),
    fs.Parse store 0 [] =
      ⟨{ fs with parsed := true }, store,
        Outcome.failure ⟨EType.NumArgs, toL "At least 1 argument is needed."⟩⟩ :=
  fun _ _ _ => rfl

/-- C9: `Parsed()` is false for a fresh `FlagSet`, registration does not
change it, and it is true after every `Parse` call regardless of outcome;
no operation resets it. -/
theorem C9_parsed_lifecycle :
    (∀ (σ : Type), (FlagSet.new (σ := σ)).parsed = false)
  ∧ (∀ (σ : Type) (fs : FlagSet σ) (f : Chars → σ → Option FlagError × σ)
      (name usage : Chars),
      (fs.Var f name usage).parsed = fs.parsed ∧ (fs.VarBool f name usage).parsed = fs.parsed)
  ∧ (∀ (σ : Type) (fs : FlagSet σ) (store : σ) (argc : Nat) (argv : List Chars),
      (fs.Parse store argc argv).fs.parsed = true) :=
  ⟨fun _ => rfl, fun _ _ _ _ _ => ⟨rfl, rfl⟩,
   fun _ fs store argc argv => Parse_parsed fs store argc argv⟩

/-- C10: `Parse` only appends to the positional-argument sequence, so a
second `Parse` call leaves the first call's positional arguments in place
and appends the new ones after them. -/
theorem C10_args_append_only :
    (∀ (σ : Type) (fs : FlagSet σ) (store : σ) (argc : Nat) (argv : List Chars),
      ∃ t, (fs.Parse store argc argv).fs.args = fs.args ++ t)
  ∧ (∀ (σ : Type) (fs : FlagSet σ) (store1 store2 : σ) (argc1 argc2 : Nat)
      (argv1 argv2 : List Chars),
      ∃ t1 t2,
        (fs.Parse store1 argc1 argv1).fs.args = fs.args ++ t1 ∧
        (((fs.Parse store1 argc1 argv1).fs).Parse store2 argc2 argv2).fs.args =
          (fs.args ++ t1) ++ t2) := by
  constructor
  · exact fun _ fs store argc argv => Parse_args_append fs store argc argv
  · intro _ fs store1 store2 argc1 argc2 argv1 argv2
    obtain ⟨t1, h1⟩ := Parse_args_append fs store1 argc1 argv1
    obtain ⟨t2, h2⟩ := Parse_args_append (fs.Parse store1 argc1 argv1).fs store2 argc2 argv2
    exact ⟨t1, t2, h1, by rw [h2, h1]⟩

theorem Parse_eq_of_scan_errored {σ : Type} (fs : FlagSet σ) (store store2 : σ)
    (rest : List Chars) (prog tok : Chars) (e : Error)
    (h : scanLoop fs.flags store (rest.length + 1) (tok :: rest) = ScanOut.errored store2 e) :
    fs.Parse store (rest.length + 2) (prog :: tok :: rest) =
      ⟨{ fs with parsed := true }, store2, Outcome.failure e⟩ := by
  unfold FlagSet.Parse
  rw [if_neg (by omega)]
  dsimp only
  rw [show rest.length + 2 - 1 = rest.length + 1 from by omega, List.drop_succ_cons,
    List.drop_zero, h]

/-- C7: the token `--` unconditionally terminates flag scanning and is itself
consumed, and a token shorter than 2 characters or not starting with a dash
(in particular a lone `-`) ends scanning without being consumed; in both
cases all remaining tokens become positional arguments in their original
order. -/
theorem C7_terminator_and_positional :
    ∀ (σ : Type) (flags : List (Chars × Flag σ)) (fs : FlagSet σ) (store : σ) (argc1 : Nat)
      (prog t : Chars) (rest : List Chars),
    (scanLoop flags store (argc1 + 1) (toL "--" :: rest) = ScanOut.stopped store argc1 rest)
  ∧ (t.length < 2 ∨ t.head? ≠ some '-' →
      scanLoop flags store (argc1 + 1) (t :: rest) =
        ScanOut.stopped store (argc1 + 1) (t :: rest))
  ∧ (fs.Parse store (rest.length + 2) (prog :: toL "--" :: rest) =
      ⟨{ fs with parsed := true, args := fs.args ++ rest }, store, Outcome.success⟩)
  ∧ (t.length < 2 ∨ t.head? ≠ some '-' →
      fs.Parse store (rest.length + 2) (prog :: t :: rest) =
        ⟨{ fs with parsed := true, args := fs.args ++ t :: rest }, store, Outcome.success⟩) := by
  intro σ flags fs store argc1 prog t rest
  refine ⟨scanLoop_terminator flags store argc1 rest,
    fun h => scanLoop_nonflag flags store argc1 t rest h, ?_, ?_⟩
  · unfold FlagSet.Parse
    rw [if_neg (by omega)]
    dsimp only
    rw [show rest.length + 2 - 1 = rest.length + 1 from by omega, List.drop_succ_cons,
      List.drop_zero, scanLoop_terminator]
    dsimp only
    rw [slurpLoop_full]
    simp
  · intro h
    unfold FlagSet.Parse
    rw [if_neg (by omega)]
    dsimp only
    rw [show rest.length + 2 - 1 = rest.length + 1 from by omega, List.drop_succ_cons,
      List.drop_zero, scanLoop_nonflag fs.flags store (rest.length) t rest h]
    dsimp only
    have hfull := slurpLoop_full (t :: rest) fs.args
    rw [List.length_cons] at hfull
    rw [hfull]
    simp

/-- C7 witness: a lone `-` ends scanning unconsumed, and `--` is consumed,
with the remaining tokens positional in order. -/
theorem C7_terminator_and_positional_witness :
    scanLoop ([] : List (Chars × Flag Chars)) (toL "z") 2 [toL "-", toL "x"] =
      ScanOut.stopped (toL "z") 2 [toL "-", toL "x"]
    ∧ (FlagSet.new (σ := Chars)).Parse (toL "z") 3 [toL "program", toL "-", toL "x"] =
      ⟨⟨true, [toL "-", toL "x"], []⟩, toL "z", Outcome.success⟩
    ∧ (FlagSet.new (σ := Chars)).Parse (toL "z") 3 [toL "program", toL "--", toL "x"] =
      ⟨⟨true, [toL "x"], []⟩, toL "z", Outcome.success⟩ := by
  refine ⟨?_, ?_, ?_⟩
  · exact (C7_terminator_and_positional Chars [] FlagSet.new (toL "z") 1 (toL "program")
      (toL "-") [toL "x"]).2.1 (by decide)
  · exact (C7_terminator_and_positional Chars [] FlagSet.new (toL "z") 1 (toL "program")
      (toL "-") [toL "x"]).2.2.2 (by decide)
  · exact (C7_terminator_and_positional Chars [] FlagSet.new (toL "z") 1 (toL "program")
      (toL "-") [toL "x"]).2.2.1

/-- C5: a flag token named `help` or `h` yields a `Help` error with an empty
message exactly when no flag is registered under that name (registry lookup
happens first, and a registered flag is processed normally through its
converter), while every other unregistered name fails with `UndefinedFlag`
naming the flag. -/
theorem C5_help_lookup_first :
    ∀ (σ : Type) (fs : FlagSet σ) (store : σ) (prog : Chars) (rest : List Chars),
    (lookupFlag fs.flags (toL "help") = none →
      (fs.Parse store (rest.length + 2) (prog :: toL "--help" :: rest)).outcome =
        Outcome.failure ⟨EType.Help, []⟩)
  ∧ (lookupFlag fs.flags (toL "h") = none →
      (fs.Parse store (rest.length + 2) (prog :: toL "-h" :: rest)).outcome =
        Outcome.failure ⟨EType.Help, []⟩)
  ∧ (∀ (c : Char) (pre : Chars), c ≠ '-' → '=' ∉ (c :: pre) →
      lookupFlag fs.flags (c :: pre) = none →
      (c :: pre) ≠ toL "help" → (c :: pre) ≠ toL "h" →
      (fs.Parse store (rest.length + 2) (prog :: ('-' :: '-' :: c :: pre) :: rest)).outcome =
        Outcome.failure
          ⟨EType.UndefinedFlag, toL "Flag provided but not defined: " ++ (c :: pre)⟩)
  ∧ (∀ (c : Char) (pre v : Chars) (fl : Flag σ), c ≠ '-' → '=' ∉ (c :: pre) →
      lookupFlag fs.flags (c :: pre) = some fl → fl.isBool = false →
      (fs.Parse store 2 [prog, '-' :: (c :: pre ++ '=' :: v)]).store = (fl.setFn v store).2 ∧
      (fs.Parse store 2 [prog, '-' :: (c :: pre ++ '=' :: v)]).outcome =
        liftValueErr (c :: pre) v (fl.setFn v store).1) := by
  intro σ fs store prog rest
  refine ⟨?_, ?_, ?_, ?_⟩
  · intro h
    rw [Parse_eq_of_scan_errored fs store store rest prog (toL "--help") ⟨EType.Help, []⟩
      (scanLoop_help_long fs.flags store rest.length rest h)]
  · intro h
    rw [Parse_eq_of_scan_errored fs store store rest prog (toL "-h") ⟨EType.Help, []⟩
      (scanLoop_help_short fs.flags store rest.length rest h)]
  · intro c pre hc hne hlook hh1 hh2
    rw [Parse_eq_of_scan_errored fs store store rest prog ('-' :: '-' :: c :: pre) _
      (scanLoop_undef fs.flags store rest.length rest c pre hc hne hlook hh1 hh2)]
  · intro c pre v fl hc hne hlook hbool
    rw [Parse_single_inline fs store prog c pre v fl hc hne hlook hbool]
    exact ⟨rfl, rfl⟩

/-- C5 witness: unregistered `--help` yields Help; an unregistered name
yields UndefinedFlag; a registered flag named like any other is processed
through its converter. -/
theorem C5_help_lookup_first_witness :
    ((FlagSet.new (σ := Chars)).Parse (toL "z") 3
        [toL "program", toL "--help", toL "arg"]).outcome = Outcome.failure ⟨EType.Help, []⟩
    ∧ ((FlagSet.new (σ := Chars)).Parse (toL "z") 2 [toL "program", toL "-d"]).outcome =
        Outcome.failure ⟨EType.UndefinedFlag, toL "Flag provided but not defined: d"⟩
    ∧ (((FlagSet.new (σ := Chars)).Var (fun s st => setString s st) (toL "s") []).Parse
        (toL "z") 2 [toL "program", toL "-s=foo"]).store = toL "foo" := by
  refine ⟨?_, ?_, ?_⟩
  · exact (C5_help_lookup_first Chars FlagSet.new (toL "z") (toL "program") [toL "arg"]).1 rfl
  · exact (C5_help_lookup_first Chars FlagSet.new (toL "z") (toL "program") []).2.2.1
      'd' [] (by decide) (by decide) rfl (by decide) (by decide)
  · have h := (C5_help_lookup_first Chars
        ((FlagSet.new (σ := Chars)).Var (fun s st => setString s st) (toL "s") [])
        (toL "z") (toL "program") []).2.2.2 's' [] (toL "foo")
        ⟨fun s st => setString s st, [], false⟩ (by decide) (by decide) rfl rfl
    exact h.1

/-- C1 counterexample: with two string converters registered under the same
name "x" (the first writing the first store component, the second writing the
second), parsing `-x=foo` invokes the FIRST registration's converter — the
first component becomes "foo" and the second component keeps its old value —
because `std::unordered_map::insert` does not overwrite an existing entry.
The claim's prediction (second binding active) is therefore false. -/
theorem C1_counterexample :
    let setFst : Chars → Chars × Chars → Option FlagError × (Chars × Chars) :=
      fun s st => ((setString s st.1).1, (setString s st.1).2, st.2)
    let setSnd : Chars → Chars × Chars → Option FlagError × (Chars × Chars) :=
      fun s st => ((setString s st.2).1, st.1, (setString s st.2).2)
    let fs := ((FlagSet.new (σ := Chars × Chars)).Var setFst (toL "x") []).Var
      setSnd (toL "x") []
    (fs.Parse (toL "x0", toL "y0") 2 [toL "program", toL "-x=foo"]).store =
        (toL "foo", toL "y0")
    ∧ (fs.Parse (toL "x0", toL "y0") 2 [toL "program", toL "-x=foo"]).store ≠
        (toL "x0", toL "foo")
    ∧ (fs.Parse (toL "x0", toL "y0") 2 [toL "program", toL "-x=foo"]).outcome =
        Outcome.success := by
  decide

/-- C1 (amended): registering a variable twice under the same name leaves only
the FIRST binding active: the second `Var` call is a no-op on the registry
(`std::unordered_map::insert` keeps the existing entry), so parsing a token
for that name invokes the converter of the first registration. -/
theorem C1_first_binding_wins :
    ∀ (σ : Type) (fs : FlagSet σ) (store : σ) (prog : Chars)
      (f1 f2 : Chars → σ → Option FlagError × σ) (u1 u2 : Chars) (c : Char) (pre v : Chars),
    ((fs.Var f1 (c :: pre) u1).Var f2 (c :: pre) u2 = fs.Var f1 (c :: pre) u1)
  ∧ (lookupFlag fs.flags (c :: pre) = none →
      lookupFlag ((fs.Var f1 (c :: pre) u1).Var f2 (c :: pre) u2).flags (c :: pre) =
        some ⟨f1, u1, false⟩)
  ∧ (c ≠ '-' → '=' ∉ (c :: pre) → lookupFlag fs.flags (c :: pre) = none →
      (((fs.Var f1 (c :: pre) u1).Var f2 (c :: pre) u2).Parse store 2
          [prog, '-' :: (c :: pre ++ '=' :: v)]).store = (f1 v store).2) := by
  intro σ fs store prog f1 f2 u1 u2 c pre v
  have hnoop : (fs.Var f1 (c :: pre) u1).Var f2 (c :: pre) u2 = fs.Var f1 (c :: pre) u1 := by
    unfold FlagSet.Var
    dsimp only
    rw [mapInsert_of_mem _ _ _ (lookupFlag_mapInsert_isSome fs.flags (c :: pre) ⟨f1, u1, false⟩)]
  have hlk : lookupFlag fs.flags (c :: pre) = none →
      lookupFlag ((fs.Var f1 (c :: pre) u1).Var f2 (c :: pre) u2).flags (c :: pre) =
        some ⟨f1, u1, false⟩ := by
    intro hfresh
    rw [hnoop]
    exact lookupFlag_mapInsert_self fs.flags (c :: pre) ⟨f1, u1, false⟩ hfresh
  refine ⟨hnoop, hlk, ?_⟩
  intro hc hne hfresh
  rw [Parse_single_inline ((fs.Var f1 (c :: pre) u1).Var f2 (c :: pre) u2) store prog
    c pre v ⟨f1, u1, false⟩ hc hne (hlk hfresh) rfl]

/-- C1 witness: the amended behaviour at a concrete double registration. -/
theorem C1_first_binding_wins_witness :
    ((((FlagSet.new (σ := Chars)).Var (fun s st => setString s st) (toL "x") []).Var
        (fun _ st => (none, st)) (toL "x") []).Parse (toL "z") 2
      [toL "program", toL "-x=foo"]).store = toL "foo" := by
  have h := (C1_first_binding_wins Chars FlagSet.new (toL "z") (toL "program")
    (fun s st => setString s st) (fun _ st => (none, st)) [] [] 'x' [] (toL "foo")).2.2
    (by decide) (by decide) rfl
  exact h

/-- C2 counterexample: with a flag registered under the name "a=b" (which the
claim says the token `-a=b=c` addresses with inline value "c"), parsing
`-a=b=c` instead splits at the FIRST `=`, looks up the name "a", and fails
with `UndefinedFlag`; no converter runs and the store is unchanged. -/
theorem C2_counterexample :
    let fs := (FlagSet.new (σ := Chars)).Var (fun s st => setString s st) (toL "a=b") []
    (fs.Parse (toL "z") 2 [toL "program", toL "-a=b=c"]).outcome =
        Outcome.failure ⟨EType.UndefinedFlag, toL "Flag provided but not defined: a"⟩
    ∧ (fs.Parse (toL "z") 2 [toL "program", toL "-a=b=c"]).store = toL "z"
    ∧ eqSplit (toL "a=b=c") = (toL "a", toL "b=c", true) := by
  decide

/-- C2 (amended): the split point is the FIRST `=` in the stripped token:
everything after the first `=` becomes the inline value (even if it contains
further `=` characters) and everything before it becomes the flag name, so
`-a=b=c` yields name "a" and value "b=c". -/
theorem C2_first_eq_wins :
    (∀ (c : Char) (pre post : Chars), '=' ∉ (c :: pre) →
      eqSplit (c :: pre ++ '=' :: post) = (c :: pre, post, true))
  ∧ eqSplit (toL "a=b=c") = (toL "a", toL "b=c", true) :=
  ⟨fun c pre post h => eqSplit_first_eq c pre post h, by decide⟩

/-- C2 witness: the amended split at a concrete token. -/
theorem C2_first_eq_wins_witness :
    eqSplit (toL "x=y") = (toL "x", toL "y", true) :=
  C2_first_eq_wins.1 'x' [] (toL "y") (by decide)

/-- C3: evaluating the code at the failing input.  With a non-boolean string
flag "s" registered, parsing `["program", "-s", "foo", "bar"]` consumes
"foo" as the value (the converter does run: the store becomes "foo"), but the
source increments `argc` instead of decrementing it (`flag.h` line 163), so
after collecting "bar" the trailing loop dereferences `argv` past the end of
the vector — undefined behaviour, modelled as the `outOfBounds` outcome —
instead of returning successfully with exactly ["bar"] positional.  The
`MissingValue` half of the claim does hold: `["program", "-s"]` fails with
`MissingValue`. -/
theorem C3_argc_increment_bug :
    let fs : FlagSet Chars := (FlagSet.new (σ := Chars)).Var (fun s st => setString s st) (toL "s") []
    (fs.Parse (toL "z") 4 [toL "program", toL "-s", toL "foo", toL "bar"]).outcome =
        Outcome.outOfBounds
    ∧ (fs.Parse (toL "z") 4 [toL "program", toL "-s", toL "foo", toL "bar"]).store = toL "foo"
    ∧ (fs.Parse (toL "z") 4 [toL "program", toL "-s", toL "foo", toL "bar"]).fs.args =
        [toL "bar"]
    ∧ (fs.Parse (toL "z") 2 [toL "program", toL "-s"]).outcome =
        Outcome.failure ⟨EType.MissingValue, toL "Flag is missing a value: s"⟩ := by
  decide

/-- C4 counterexample: the float and double converters do NOT leave the bound
variable at its prior value on a conversion failure: converting "abc" with
prior value 1 reports a failure and stores 0 (C++11 formatted extraction
stores 0 on failure), and 0 differs from the prior value 1. -/
theorem C4_counterexample :
    setFloat (toL "abc") 1 = (some ⟨toL "number is not a float"⟩, 0)
    ∧ setDouble (toL "abc") 1 = (some ⟨toL "number is not a double"⟩, 0)
    ∧ (0 : Rat) ≠ 1 := by
  decide

/-- C4 (amended): for every float or double flag and every value token the
numeric extraction rejects, the converter reports a conversion failure
(lifted to `BadValue` by `Parse`) and the bound variable is set to 0, the
value a failed C++11 stream extraction stores; it equals its value prior to
the call only when that value was already 0.  The `Parse`-level conjunct
shows this for every prior value of a registered float flag. -/
theorem C4_failure_stores_zero :
    (∀ (s : Chars) (x y : Rat), parseFloat s = none →
      setFloat s x = (some ⟨toL "number is not a float"⟩, 0)
      ∧ setDouble s y = (some ⟨toL "number is not a double"⟩, 0))
  ∧ (∀ (prior : Rat),
      (((FlagSet.new (σ := Rat)).Var (fun s st => setFloat s st) (toL "f") []).Parse prior 2
          [toL "program", toL "-f=abc"]).store = 0
      ∧ (((FlagSet.new (σ := Rat)).Var (fun s st => setFloat s st) (toL "f") []).Parse prior 2
          [toL "program", toL "-f=abc"]).outcome =
          Outcome.failure ⟨EType.BadValue,
            toL "Bad value abc for flag f: number is not a float"⟩) := by
  constructor
  · intro s x y h
    rw [setFloat, setDouble, h]
    exact ⟨rfl, rfl⟩
  · intro prior
    exact ⟨rfl, rfl⟩

/-- C4 witness: the amended behaviour at the concrete token "abc" with
nonzero prior values. -/
theorem C4_failure_stores_zero_witness :
    setFloat (toL "abc") 5 = (some ⟨toL "number is not a float"⟩, 0)
    ∧ setDouble (toL "abc") 7 = (some ⟨toL "number is not a double"⟩, 0) :=
  C4_failure_stores_zero.1 (toL "abc") 5 7 (by decide)

end FlagCxx


